import Mathlib

/-!
Verification of the caddy-jwt token validation engine.

The Go sources embedded here are src/validator.go and src/unnamed/part_000
(two implementations of the claimContainsString validator, the second also
holding claimValueIsStringIgnoreCase), together with the behavior pinned by
src/jwt_test.go. Components whose implementation file is absent from src
(the stringify and desensitizedTokenString helpers, the token locator, the
audience check and the identity projector of Authenticate) are modelled from
the specification, with their behavior checked against the concrete vectors
and scenarios of src/jwt_test.go.

Strings are modelled as Lean strings with character-based length and slicing;
the Go code indexes bytes, which coincides with characters on the ASCII
inputs the repository exercises.
-/

namespace CaddyJWT

mutual
/-- Dynamically typed Go claim values (interface values), as they occur in a
parsed JWT claim set and in the repository tests: null, string, numeric
literal (json.Number, carried as its integer value), boolean, time value
(carried together with its RFC-3339 UTC nanosecond rendering, which the Go
standard library produces), a Go []string slice, a Go []interface slice, a
Go []int slice (an example of a slice type other than []string and
[]interface, used by Test_stringify), a value implementing fmt.Stringer
(carried with the text its String method returns), and any other
unsupported value. -/
inductive GoValue where
  | nullV
  | str (s : String)
  | num (n : Int)
  | boolV (b : Bool)
  | timeV (rfc3339 : String)
  | listStr (xs : List String)
  | list (xs : GoValueList)
  | listInt (xs : List Int)
  | stringer (text : String)
  | other

/-- Elements of a Go []interface slice, mutually defined with GoValue so that
slices may nest arbitrarily, as Go interface values do. -/
inductive GoValueList where
  | nil
  | cons (head : GoValue) (tail : GoValueList)
end

/-- View of a GoValueList as a Lean list, used to state membership facts. -/
def GoValueList.toList : GoValueList → List GoValue
  | GoValueList.nil => []
  | GoValueList.cons x xs => x :: xs.toList

/-- Range over a Go []interface slice testing a predicate, as a Go for-range
loop returning early does. -/
def GoValueList.any (l : GoValueList) (p : GoValue → Bool) : Bool :=
  match l with
  | GoValueList.nil => false
  | GoValueList.cons x xs => p x || xs.any p

/-- A token claim set: the jwx Token is consulted only through Get, which
returns the claim value by name when present. -/
abbrev Token := List (String × GoValue)

/-- Case folding of a string, character by character. Models the Go function
strings.EqualFold, which is faithful on ASCII data. -/
def foldChars (s : String) : List Char := s.data.map Char.toLower

/-- Case-insensitive string equality, modelling strings.EqualFold. -/
def eqFold (a b : String) : Bool := foldChars a == foldChars b

/-- Go comparison of an interface value with a string (the expression
v == ccs.value in src/validator.go, where v has type interface and
ccs.value has type string): true exactly when the dynamic type of v is
string and the values are equal. -/
def goEqString (v : GoValue) (s : String) : Bool :=
  match v with
  | GoValue.str s2 => s2 == s
  | _ => false

/-- Element test of the part_000 loop body: the element type-asserted to
string, then compared with strings.EqualFold against the expected value. -/
def strFoldMatch (value : String) (e : GoValue) : Bool :=
  match e with
  | GoValue.str s => eqFold s value
  | _ => false

/-- Embedding of claimContainsString.Validate from src/validator.go: fetch
the claim (error when absent), type-assert it to a Go []interface slice
(error otherwise), then return nil on the first element for which the Go
comparison v == ccs.value holds, and an error when the loop finds none.
Returns none for the nil (success) result and some message for a
jwt.ValidationError. -/
def containsStringValidateEq (name value : String) (t : Token) : Option String :=
  match t.lookup name with
  | none => some ("claim " ++ name ++ " not found")
  | some v =>
    match v with
    | GoValue.list xs =>
        if xs.any (fun e => goEqString e value) then none
        else some (name ++ " not satisfied")
    | _ => some ("claim " ++ name ++ " must be a list of interface values")

/-- Embedding of claimContainsString.Validate from src/unnamed/part_000:
identical to the src/validator.go version except in the loop body, where the
element is first type-asserted to string and then compared with
strings.EqualFold. -/
def containsStringValidateFold (name value : String) (t : Token) : Option String :=
  match t.lookup name with
  | none => some ("claim " ++ name ++ " not found")
  | some v =>
    match v with
    | GoValue.list xs =>
        if xs.any (strFoldMatch value) then none
        else some (name ++ " not satisfied")
    | _ => some (name ++ " must be a list of interface values")

/-- Embedding of claimValueIsStringIgnoreCase.Validate from
src/unnamed/part_000: fetch the claim (error when absent), type-assert it to
string (error otherwise), error unless strings.EqualFold relates it to the
expected value. -/
def valueIsStringIgnoreCaseValidate (name value : String) (t : Token) : Option String :=
  match t.lookup name with
  | none => some (name ++ " not satisfied: claim does not exist")
  | some v =>
    match v with
    | GoValue.str s =>
        if eqFold s value then none
        else some (name ++ " not satisfied: values do not match")
    | _ => some (name ++ " not satisfied: claim not a string")

mutual
/-- Modelled from the spec: the stringify helper of the Identity Projector is
absent from src. Spec section 4.5(3) gives the stringification policy and the
rows of Test_stringify in src/jwt_test.go pin its value on concrete inputs:
null maps to the empty string, a string to itself, a numeric literal to its
decimal text, a boolean to true or false, a time value to its RFC-3339 UTC
rendering, a Go []string slice and a Go []interface slice to their elements
stringified and joined with commas, a fmt.Stringer value to its textual
representation, and anything else, including a slice of another element type
such as the []int of the unit test, to the empty string, never an error. -/
def stringify : GoValue → String
  | GoValue.nullV => ""
  | GoValue.str s => s
  | GoValue.num n => toString n
  | GoValue.boolV b => if b then "true" else "false"
  | GoValue.timeV r => r
  | GoValue.listStr xs => String.intercalate "," xs
  | GoValue.list xs => String.intercalate "," (stringifyList xs)
  | GoValue.listInt _ => ""
  | GoValue.stringer t => t
  | GoValue.other => ""

/-- Modelled from the spec: elementwise stringification of a Go []interface
slice, mutually with stringify. -/
def stringifyList : GoValueList → List String
  | GoValueList.nil => []
  | GoValueList.cons x xs => stringify x :: stringifyList xs
end

/-- Rows of Test_stringify from src/jwt_test.go with concrete inputs (the
time row of that test uses a runtime clock value and is covered instead by
the universally quantified time case of the claim theorem). -/
def stringifyTestVectors : List (GoValue × String) :=
  [(GoValue.nullV, ""),
   (GoValue.str "abc", "abc"),
   (GoValue.boolV true, "true"),
   (GoValue.boolV false, "false"),
   (GoValue.num 1991, "1991"),
   (GoValue.listInt [1, 2, 3], ""),
   (GoValue.other, ""),
   (GoValue.stringer "i\x27m stringer", "i\x27m stringer")]

/-- Modelled from the spec: desensitizedTokenString is absent from src. Spec
section 6 describes its truncation table and Test_desensitizedTokenString in
src/jwt_test.go pins its value on nine inputs: tokens of length at most 6
are unchanged, and longer tokens keep their first and last min(length / 3,
16) characters around a single ellipsis character, the unique rule of this
shape matching all nine test vectors. -/
def desensitizedTokenString (s : String) : String :=
  if s.length ≤ 6 then s
  else
    let n := min (s.length / 3) 16
    s.take n ++ "…" ++ s.drop (s.length - n)

/-- Formalization of the truncation table exactly as the spec words it, for
comparison with the tested behavior: tokens of length at most 6 unchanged,
lengths 7 to 10 keep the first 2 and last 2 characters, anything longer
keeps the first 16 and last 16 characters. -/
def desensitizedTokenStringSpec (s : String) : String :=
  if s.length ≤ 6 then s
  else if s.length ≤ 10 then s.take 2 ++ "…" ++ s.drop (s.length - 2)
  else s.take 16 ++ "…" ++ s.drop (s.length - 16)

/-- Input of the longest row of Test_desensitizedTokenString, 104 characters. -/
def tok104 : String :=
  "abcdefghijklmnopqrstuvwxyzabcdefghijklmnopqrstuvwxyzabcdefghijklmnopqrstuvwxyzabcdefghijklmnopqrstuvwxyz"

/-- Test vector table of Test_desensitizedTokenString from src/jwt_test.go. -/
def desensitizedTestVectors : List (String × String) :=
  [("", ""),
   ("abc", "abc"),
   ("abcdef", "abcdef"),
   ("abcdefg", "ab…fg"),
   ("abcdefeijk", "abc…ijk"),
   ("abcdefghijklmnopqrstuvwxyz", "abcdefgh…stuvwxyz"),
   ("abcdefghijklmnopqrstuvwxyzabcdefghijklmnopqrstuv",
    "abcdefghijklmnop…ghijklmnopqrstuv"),
   ("abcdefghijklmnopqrstuvwxyzabcdefghijklmnopqrstuvwxyz",
    "abcdefghijklmnop…klmnopqrstuvwxyz"),
   (tok104, "abcdefghijklmnop…klmnopqrstuvwxyz")]

/-- Carriers of an incoming request, each a name-to-value collection the
engine reads: header values, query parameter values, cookie values. -/
structure AuthRequest where
  headers : List (String × String)
  queries : List (String × String)
  cookies : List (String × String)

/-- Configured search order of the Token Locator: header names, query
parameter names, cookie names. -/
structure CarrierConfig where
  fromHeader : List String
  fromQuery : List String
  fromCookies : List String

/-- Header values beginning with the case-sensitive marker Bearer and a
space have that marker stripped; any other header value passes unmodified
(spec section 4.1). -/
def stripBearer (s : String) : String :=
  if s.take 7 == "Bearer " then s.drop 7 else s

/-- Modelled from the spec: the Token Locator of Authenticate is absent from
src. Candidate tokens are gathered from headers in configured order, then
query parameters in configured order, then cookies in configured order;
header values have the Bearer marker stripped, query and cookie values are
never stripped, and empty values are skipped (spec sections 4.1 and 8). -/
def gatherTokens (cfg : CarrierConfig) (r : AuthRequest) : List String :=
  ((cfg.fromHeader.filterMap (fun h => (r.headers.lookup h).map stripBearer)) ++
   (cfg.fromQuery.filterMap (fun q => r.queries.lookup q)) ++
   (cfg.fromCookies.filterMap (fun c => r.cookies.lookup c))).filter
    (fun s => s != "")

/-- Modelled from the spec: Authenticate is absent from src. It tries the
gathered candidates in order against verification and succeeds exactly when
some candidate verifies, so a carrier located later still authenticates when
an earlier located carrier holds a token failing verification (spec section
8 and TestAuthenticate_FromQuery). The verify argument abstracts signature
and claims verification of one raw token string. -/
def authSucceeds (verify : String → Bool) (cfg : CarrierConfig) (r : AuthRequest) : Bool :=
  (gatherTokens cfg r).any verify

/-- Membership of a claim element in the audience whitelist: the element
matches when it is a string equal to some whitelist entry. -/
def strInList (wl : List String) (e : GoValue) : Bool :=
  match e with
  | GoValue.str s => wl.contains s
  | _ => false

/-- Modelled from the spec: the audience whitelist check of the Claims
Verifier is absent from src. With a whitelist configured, a verified token
passes when its audience claim is a single string equal to some whitelist
entry, or a list some element of which equals some whitelist entry; an
absent audience claim or one of any other shape fails (spec sections 4.3 and
8, pinned by TestAuthenticate_VerifyAudienceWhitelist). -/
def audienceCheck (wl : List String) (aud : Option GoValue) : Bool :=
  match aud with
  | some (GoValue.str s) => wl.contains s
  | some (GoValue.list xs) => xs.any (strInList wl)
  | _ => false

/-- Modelled from the spec: the Identity Projector of Authenticate is absent
from src. The candidate ID claim names are scanned in order; each claim
value is fetched (an absent claim reads as null) and stringified, and the
first non-empty result is the user ID; the empty string results when no
candidate produces one (spec section 4.5). -/
def resolveUserID (claims : Token) : List String → String
  | [] => ""
  | c :: rest =>
    let s := stringify ((claims.lookup c).getD GoValue.nullV)
    if s == "" then resolveUserID claims rest else s

/-- The engine output on success: an identifier string, never empty on
success. Metadata projection is outside the claims treated here. -/
structure User where
  id : String
deriving Repr, DecidableEq

/-- Modelled from the spec: the tail of Authenticate after signature and
predicate verification succeeded, absent from src. The user ID is resolved
from the candidate list; an empty resolution makes Authenticate return
authenticated false with an error and no partial identity, even though
verification succeeded (spec section 4.5 and
TestAuthenticate_CustomUserClaims). -/
def authenticateVerified (claims : Token) (userClaims : List String) : Option User :=
  let id := resolveUserID claims userClaims
  if id == "" then none else some ⟨id⟩

/-- Claim set of the TestAuthenticate_CustomUserClaims scenario with a null
user_id and a numeric uid. -/
def uidClaims : Token :=
  [("username", GoValue.str "ggicci"),
   ("user_id", GoValue.nullV),
   ("uid", GoValue.num 19911110)]

/-- Audience whitelist of TestAuthenticate_VerifyAudienceWhitelist. -/
def testAudWhitelist : List String :=
  ["https://api.codelet.io", "https://api.copilot.codelet.io"]

/-- List audience of the passing multi-valued scenario of
TestAuthenticate_VerifyAudienceWhitelist. -/
def audListPass : GoValueList :=
  GoValueList.cons (GoValue.str "https://api.learn.codelet.io")
    (GoValueList.cons (GoValue.str "https://api.copilot.codelet.io") GoValueList.nil)

/-- List audience of the failing multi-valued scenario of
TestAuthenticate_VerifyAudienceWhitelist. -/
def audListFail : GoValueList :=
  GoValueList.cons (GoValue.str "https://api.example.com")
    (GoValueList.cons (GoValue.str "https://api.example.org") GoValueList.nil)

/-- Carrier configuration of TestAuthenticate_FromQuery: no headers or
cookies, query parameters access_token then token. -/
def queryScenarioCfg : CarrierConfig :=
  ⟨[], ["access_token", "token"], []⟩

/-- Request of the mixed scenario of TestAuthenticate_FromQuery: an invalid
token under access_token and a valid one under token. -/
def queryScenarioReq : AuthRequest :=
  ⟨[], [("access_token", "BADTOKEN"), ("token", "VALIDTOKEN")], []⟩

/-- Claim value role = [foo, test] of the contains-string scenarios (spec
section 8 and TestAuthenticate_VerifyClaim). -/
def listFooTest : GoValueList :=
  GoValueList.cons (GoValue.str "foo")
    (GoValueList.cons (GoValue.str "test") GoValueList.nil)

/-- Token carrying the claim role = [foo, test]. -/
def tokRoleFooTest : Token := [("role", GoValue.list listFooTest)]

/-- Token carrying the claim role = [test], on which both contains-string
implementations succeed against the expected value test. -/
def tokRoleTestList : Token :=
  [("role", GoValue.list (GoValueList.cons (GoValue.str "test") GoValueList.nil))]

/-- Token carrying the claim role = [TEST], written upper case, on which the
two contains-string implementations disagree for the expected value test. -/
def tokRoleUpperList : Token :=
  [("role", GoValue.list (GoValueList.cons (GoValue.str "TEST") GoValueList.nil))]

/-- Token carrying the scalar claim role = test, a non-list value textually
equal to the expected value of the contains-string scenarios. -/
def tokRoleScalarTest : Token := [("role", GoValue.str "test")]

/-- Slice holding the single numeric literal 1991. -/
def listNum1991 : GoValueList :=
  GoValueList.cons (GoValue.num 1991) GoValueList.nil

/-- Token whose aud claim is a list holding only the numeric literal 1991,
whose decimal text equals the expected value 1991. -/
def tokAudNum : Token := [("aud", GoValue.list listNum1991)]

set_option maxRecDepth 100000

theorem goValueListAny_iff (p : GoValue → Bool) : (l : GoValueList) →
    (l.any p = true ↔ ∃ e ∈ l.toList, p e = true)
  | GoValueList.nil => by simp [GoValueList.any, GoValueList.toList]
  | GoValueList.cons x xs => by
      simp [GoValueList.any, GoValueList.toList, Bool.or_eq_true,
        goValueListAny_iff p xs]

theorem goValueListAny_mono (p q : GoValue → Bool)
    (hpq : ∀ e, p e = true → q e = true) :
    (l : GoValueList) → l.any p = true → l.any q = true
  | GoValueList.nil => by simp [GoValueList.any]
  | GoValueList.cons x xs => by
      simp only [GoValueList.any, Bool.or_eq_true]
      rintro (hx | hxs)
      · exact Or.inl (hpq x hx)
      · exact Or.inr (goValueListAny_mono p q hpq xs hxs)

theorem stringifyList_eq_map : (l : GoValueList) →
    stringifyList l = l.toList.map stringify
  | GoValueList.nil => rfl
  | GoValueList.cons x xs => by
      simp [stringifyList, GoValueList.toList, stringifyList_eq_map xs]

theorem goEqString_iff (e : GoValue) (v : String) :
    goEqString e v = true ↔ e = GoValue.str v := by
  cases e <;> simp [goEqString]

theorem strFoldMatch_iff (value : String) (e : GoValue) :
    strFoldMatch value e = true ↔
      ∃ s, e = GoValue.str s ∧ eqFold s value = true := by
  cases e <;> simp [strFoldMatch]

theorem strInList_iff (wl : List String) (e : GoValue) :
    strInList wl e = true ↔ ∃ s, e = GoValue.str s ∧ s ∈ wl := by
  cases e <;> simp [strInList]

theorem eqFold_self (s : String) : eqFold s s = true := by
  simp [eqFold]

theorem goEq_implies_foldMatch (e : GoValue) (v : String)
    (h : goEqString e v = true) : strFoldMatch v e = true := by
  rcases (goEqString_iff e v).mp h with rfl
  simp [strFoldMatch, eqFold_self]

theorem boolGate_eq_none (c : Bool) (m : String) :
    (if c = true then (none : Option String) else some m) = none ↔ c = true := by
  cases c <;> simp

/-- C1 (amended): for the part_000 implementation of
ClaimContainsString(n, v).Validate, whenever the claim n is present with a
Go []interface value, Validate returns nil exactly when some element of the
list is a string equal to v under case-insensitive comparison; in
particular, for claim value [foo, test] both expected values test and TEST
succeed (see the witness). The src/validator.go implementation instead
compares elements with the case-sensitive, type-exact Go equality, so TEST
fails there (see the counterexample). -/
theorem claimC1_containsFoldCaseInsensitive (t : Token) (n v : String)
    (xs : GoValueList) (h : t.lookup n = some (GoValue.list xs)) :
    containsStringValidateFold n v t = none ↔
      ∃ e ∈ xs.toList, ∃ s, e = GoValue.str s ∧ eqFold s v = true := by
  have h1 : containsStringValidateFold n v t =
      (if xs.any (strFoldMatch v) = true then none
       else some (n ++ " not satisfied")) := by
    simp [containsStringValidateFold, h]
  rw [h1, boolGate_eq_none, goValueListAny_iff (strFoldMatch v) xs]
  exact exists_congr fun e => and_congr_right fun _ => strFoldMatch_iff v e

/-- Witness for C1: on the claim value [foo, test] the part_000
implementation succeeds for the expected values test and TEST. -/
theorem claimC1_witness :
    containsStringValidateFold "role" "TEST" tokRoleFooTest = none ∧
    containsStringValidateFold "role" "test" tokRoleFooTest = none := by
  constructor
  · exact (claimC1_containsFoldCaseInsensitive tokRoleFooTest "role" "TEST"
      listFooTest rfl).mpr
      ⟨GoValue.str "test", List.Mem.tail _ (List.Mem.head _), "test", rfl, rfl⟩
  · exact (claimC1_containsFoldCaseInsensitive tokRoleFooTest "role" "test"
      listFooTest rfl).mpr
      ⟨GoValue.str "test", List.Mem.tail _ (List.Mem.head _), "test", rfl, rfl⟩

/-- C1 is refuted on the src/validator.go implementation it also cites: on
the claim value [foo, test], the expected value TEST matches the element
test case-insensitively, yet Validate returns an error, because the Go
comparison v == ccs.value in that file is case-sensitive. -/
theorem claimC1_cex :
    eqFold "test" "TEST" = true ∧
    containsStringValidateEq "role" "TEST" tokRoleFooTest ≠ none := by
  exact ⟨rfl, by decide⟩

/-- C2 (amended): the two Validate implementations are not equivalent; only
one direction holds. Whenever the src/validator.go implementation returns
nil, so does the part_000 implementation, since exact equality of a string
element implies its case-insensitive equality; the converse fails on a list
element differing from the expected value only by case (see the
counterexample). -/
theorem claimC2_eqImpliesFold (t : Token) (n v : String)
    (h : containsStringValidateEq n v t = none) :
    containsStringValidateFold n v t = none := by
  cases hl : t.lookup n with
  | none => simp [containsStringValidateEq, hl] at h
  | some val =>
    cases val with
    | list xs =>
        simp only [containsStringValidateEq, hl] at h
        simp only [containsStringValidateFold, hl]
        rw [boolGate_eq_none] at h ⊢
        exact goValueListAny_mono _ _ (fun e => goEq_implies_foldMatch e v) xs h
    | nullV => simp [containsStringValidateEq, hl] at h
    | str s => simp [containsStringValidateEq, hl] at h
    | num m => simp [containsStringValidateEq, hl] at h
    | boolV b => simp [containsStringValidateEq, hl] at h
    | timeV r => simp [containsStringValidateEq, hl] at h
    | listStr ss => simp [containsStringValidateEq, hl] at h
    | listInt ns => simp [containsStringValidateEq, hl] at h
    | stringer ts => simp [containsStringValidateEq, hl] at h
    | other => simp [containsStringValidateEq, hl] at h

/-- Witness for C2: on the claim value [test] with expected value test the
src/validator.go implementation succeeds, hence so does part_000. -/
theorem claimC2_witness :
    containsStringValidateFold "role" "test" tokRoleTestList = none :=
  claimC2_eqImpliesFold tokRoleTestList "role" "test" (by decide)

/-- C2 is refuted: on the claim value [TEST] with expected value test, the
part_000 implementation succeeds while the src/validator.go implementation
fails, so the two implementations are not equivalent. -/
theorem claimC2_cex :
    containsStringValidateFold "role" "test" tokRoleUpperList = none ∧
    containsStringValidateEq "role" "test" tokRoleUpperList ≠ none := by
  decide

/-- C7: the equals-string-ignore-case validator of src/unnamed/part_000
returns nil exactly when the claim is present, string-typed, and equal to
the expected value under case-insensitive comparison; in every other case,
claim absent, value not a string, or strings differing beyond case, it
returns a validation error. -/
theorem claimC7_ignoreCaseCharacterization (t : Token) (n v : String) :
    valueIsStringIgnoreCaseValidate n v t = none ↔
      ∃ s, t.lookup n = some (GoValue.str s) ∧ eqFold s v = true := by
  cases hl : t.lookup n with
  | none => simp [valueIsStringIgnoreCaseValidate, hl]
  | some val =>
    cases val with
    | str s =>
        have h1 : valueIsStringIgnoreCaseValidate n v t =
            (if eqFold s v = true then none
             else some (n ++ " not satisfied: values do not match")) := by
          simp [valueIsStringIgnoreCaseValidate, hl]
        rw [h1, boolGate_eq_none]
        constructor
        · intro he; exact ⟨s, rfl, he⟩
        · rintro ⟨s2, hs2, hf⟩
          simp only [Option.some.injEq, GoValue.str.injEq] at hs2
          rw [hs2]; exact hf
    | nullV => simp [valueIsStringIgnoreCaseValidate, hl]
    | num m => simp [valueIsStringIgnoreCaseValidate, hl]
    | boolV b => simp [valueIsStringIgnoreCaseValidate, hl]
    | timeV r => simp [valueIsStringIgnoreCaseValidate, hl]
    | listStr ss => simp [valueIsStringIgnoreCaseValidate, hl]
    | list xs => simp [valueIsStringIgnoreCaseValidate, hl]
    | listInt ns => simp [valueIsStringIgnoreCaseValidate, hl]
    | stringer ts => simp [valueIsStringIgnoreCaseValidate, hl]
    | other => simp [valueIsStringIgnoreCaseValidate, hl]

/-- C8: both contains-string implementations return a validation error when
the named claim is absent, and when its value is not a Go []interface
slice, even when a scalar value is textually equal to the expected string
(see the witness for the scalar test against expected test). -/
theorem claimC8_absentOrNonListFails (t : Token) (n v : String) :
    (t.lookup n = none →
      containsStringValidateEq n v t ≠ none ∧
      containsStringValidateFold n v t ≠ none) ∧
    (∀ val, t.lookup n = some val → (∀ xs, val ≠ GoValue.list xs) →
      containsStringValidateEq n v t ≠ none ∧
      containsStringValidateFold n v t ≠ none) := by
  constructor
  · intro hl
    simp [containsStringValidateEq, containsStringValidateFold, hl]
  · intro val hl hnl
    cases val with
    | list xs => exact absurd rfl (hnl xs)
    | nullV => simp [containsStringValidateEq, containsStringValidateFold, hl]
    | str s => simp [containsStringValidateEq, containsStringValidateFold, hl]
    | num m => simp [containsStringValidateEq, containsStringValidateFold, hl]
    | boolV b => simp [containsStringValidateEq, containsStringValidateFold, hl]
    | timeV r => simp [containsStringValidateEq, containsStringValidateFold, hl]
    | listStr ss => simp [containsStringValidateEq, containsStringValidateFold, hl]
    | listInt ns => simp [containsStringValidateEq, containsStringValidateFold, hl]
    | stringer ts => simp [containsStringValidateEq, containsStringValidateFold, hl]
    | other => simp [containsStringValidateEq, containsStringValidateFold, hl]

/-- Witness for C8: the scalar claim role = test fails both implementations
against the expected value test although textually equal. -/
theorem claimC8_witness :
    containsStringValidateEq "role" "test" tokRoleScalarTest ≠ none ∧
    containsStringValidateFold "role" "test" tokRoleScalarTest ≠ none :=
  (claimC8_absentOrNonListFails tokRoleScalarTest "role" "test").2
    (GoValue.str "test") rfl (fun _ h => GoValue.noConfusion h)

/-- C10: when the named claim is a list containing no string-typed element,
both contains-string implementations fail whatever the expected value: a
non-string element never satisfies the predicate, even when its textual
rendering equals the expected string. -/
theorem claimC10_noStringElementNeverMatches (t : Token) (n v : String)
    (xs : GoValueList) (h : t.lookup n = some (GoValue.list xs))
    (hns : ∀ e ∈ xs.toList, ∀ s, e ≠ GoValue.str s) :
    containsStringValidateEq n v t ≠ none ∧
    containsStringValidateFold n v t ≠ none := by
  have hEq : xs.any (fun e => goEqString e v) = false := by
    rw [Bool.eq_false_iff]
    intro hc
    obtain ⟨e, he, hpe⟩ := (goValueListAny_iff _ xs).mp hc
    exact hns e he v ((goEqString_iff e v).mp hpe)
  have hFold : xs.any (strFoldMatch v) = false := by
    rw [Bool.eq_false_iff]
    intro hc
    obtain ⟨e, he, hpe⟩ := (goValueListAny_iff _ xs).mp hc
    obtain ⟨s, rfl, _⟩ := (strFoldMatch_iff v e).mp hpe
    exact hns _ he s rfl
  constructor
  · simp [containsStringValidateEq, h, hEq]
  · simp [containsStringValidateFold, h, hFold]

/-- Witness for C10: the list claim aud = [1991], whose only element is the
numeric literal 1991, fails both implementations against the expected value
1991 although its decimal rendering is textually equal. -/
theorem claimC10_witness :
    containsStringValidateEq "aud" "1991" tokAudNum ≠ none ∧
    containsStringValidateFold "aud" "1991" tokAudNum ≠ none :=
  claimC10_noStringElementNeverMatches tokAudNum "aud" "1991" listNum1991 rfl
    (by
      intro e he s
      simp only [listNum1991, GoValueList.toList, List.mem_singleton] at he
      subst he
      intro hcontra
      exact GoValue.noConfusion hcontra)

/-- C3 (amended): desensitizedTokenString leaves tokens of length at most 6
unchanged; a longer token keeps its first and last min(length / 3, 16)
characters around the ellipsis character, so lengths 7 and 8 keep 2 and 2,
lengths 9 and 10 keep 3 and 3, and only length 48 and beyond keeps the
first 16 and last 16 regardless of the omitted middle; the rule reproduces
every row of Test_desensitizedTokenString. -/
theorem claimC3_desensitizedRule (s : String) :
    (s.length ≤ 6 → desensitizedTokenString s = s) ∧
    (6 < s.length →
      desensitizedTokenString s =
        s.take (min (s.length / 3) 16) ++ "…" ++
          s.drop (s.length - min (s.length / 3) 16)) ∧
    (48 ≤ s.length →
      desensitizedTokenString s =
        s.take 16 ++ "…" ++ s.drop (s.length - 16)) ∧
    desensitizedTestVectors.all
      (fun p => desensitizedTokenString p.1 == p.2) = true := by
  refine ⟨?_, ?_, ?_, by decide⟩
  · intro h
    simp [desensitizedTokenString, h]
  · intro h
    have h6 : ¬ s.length ≤ 6 := by omega
    simp [desensitizedTokenString, h6]
  · intro h
    have h6 : ¬ s.length ≤ 6 := by omega
    have hdiv : 16 ≤ s.length / 3 := by
      have h2 : 48 / 3 ≤ s.length / 3 := Nat.div_le_div_right h
      simpa using h2
    have hmin : min (s.length / 3) 16 = 16 := Nat.min_eq_right hdiv
    simp [desensitizedTokenString, h6, hmin]

/-- Witness for C3: the 104-character test input keeps its first 16 and
last 16 characters. -/
theorem claimC3_witness :
    desensitizedTokenString tok104 =
      tok104.take 16 ++ "…" ++ tok104.drop (tok104.length - 16) :=
  (claimC3_desensitizedRule tok104).2.2.1 (by decide)

/-- C3 is refuted by the repository test table: on the length-10 input
abcdefeijk the claim prescribes the first 2 and last 2 characters, but
Test_desensitizedTokenString requires the first 3 and last 3. -/
theorem claimC3_cex :
    ("abcdefeijk", "abc…ijk") ∈ desensitizedTestVectors ∧
    desensitizedTokenStringSpec "abcdefeijk" = "ab…jk" ∧
    desensitizedTokenString "abcdefeijk" = "abc…ijk" ∧
    ("ab…jk" : String) ≠ "abc…ijk" := by
  decide

/-- C9 (amended): stringify maps null to the empty string, a string to
itself, a boolean to true or false, a numeric literal to its decimal text,
a time value to its RFC-3339 UTC rendering, a Go []string slice and a Go
[]interface slice to their elements stringified and joined with commas and
no spaces, a fmt.Stringer value to its textual representation, and every
other composite or unsupported value, including slices of other element
types such as []int, to the empty string, never an error; it reproduces the
concrete rows of Test_stringify. -/
theorem claimC9_stringifyPolicy :
    (stringify GoValue.nullV = "") ∧
    (∀ s, stringify (GoValue.str s) = s) ∧
    (∀ b, stringify (GoValue.boolV b) = if b then "true" else "false") ∧
    (∀ n, stringify (GoValue.num n) = toString n) ∧
    (∀ r, stringify (GoValue.timeV r) = r) ∧
    (∀ xs, stringify (GoValue.listStr xs) = String.intercalate "," xs) ∧
    (∀ l, stringify (GoValue.list l) =
      String.intercalate "," (l.toList.map stringify)) ∧
    (∀ ns, stringify (GoValue.listInt ns) = "") ∧
    (∀ txt, stringify (GoValue.stringer txt) = txt) ∧
    (stringify GoValue.other = "") ∧
    stringifyTestVectors.all (fun p => stringify p.1 == p.2) = true := by
  refine ⟨rfl, fun s => rfl, fun b => rfl, fun n => rfl, fun r => rfl,
    fun xs => rfl, fun l => ?_, fun ns => rfl, fun txt => rfl, rfl, by decide⟩
  simp [stringify, stringifyList_eq_map l]

/-- C9 is refuted on Go slices of element types other than []string and
[]interface: the value []int 1 2 3 is a list of scalars, yet stringify maps
it to the empty string rather than the comma-joined 1,2,3, as the
corresponding row of Test_stringify requires. -/
theorem claimC9_cex :
    stringify (GoValue.listInt [1, 2, 3]) = "" ∧ ("" : String) ≠ "1,2,3" := by
  decide

/-- C4: authentication succeeds exactly when some candidate gathered from
the carriers, headers in configured order, then query parameters in order,
then cookies in order, verifies; in the TestAuthenticate_FromQuery
scenario with query order access_token, token, the invalid earlier-located
access_token value is gathered first and the valid token value still
authenticates. -/
theorem claimC4_anyCarrierAuthenticates (verify : String → Bool)
    (cfg : CarrierConfig) (r : AuthRequest) :
    (authSucceeds verify cfg r = true ↔
      ∃ tk ∈ gatherTokens cfg r, verify tk = true) ∧
    gatherTokens queryScenarioCfg queryScenarioReq =
      ["BADTOKEN", "VALIDTOKEN"] ∧
    (fun tk => tk == "VALIDTOKEN") "BADTOKEN" = false ∧
    authSucceeds (fun tk => tk == "VALIDTOKEN")
      queryScenarioCfg queryScenarioReq = true := by
  refine ⟨?_, by decide, by decide, by decide⟩
  exact List.any_eq_true

/-- C5: with an audience whitelist configured, the audience check passes
exactly when the audience claim is a single string equal to some whitelist
entry or a list some element of which equals some whitelist entry, a
logical OR over elements rather than a subset requirement; an absent or
unmatched audience fails, as in the four scenarios of
TestAuthenticate_VerifyAudienceWhitelist. -/
theorem claimC5_audienceWhitelist (wl : List String) (aud : Option GoValue) :
    (audienceCheck wl aud = true ↔
      (∃ s, aud = some (GoValue.str s) ∧ s ∈ wl) ∨
      (∃ xs, aud = some (GoValue.list xs) ∧
        ∃ e ∈ xs.toList, ∃ s, e = GoValue.str s ∧ s ∈ wl)) ∧
    audienceCheck testAudWhitelist
      (some (GoValue.str "https://api.codelet.io")) = true ∧
    audienceCheck testAudWhitelist (some (GoValue.list audListPass)) = true ∧
    audienceCheck testAudWhitelist none = false ∧
    audienceCheck testAudWhitelist (some (GoValue.list audListFail)) = false := by
  refine ⟨?_, by decide, by decide, by decide, by decide⟩
  cases aud with
  | none => simp [audienceCheck]
  | some v =>
    cases v with
    | str s => simp [audienceCheck]
    | list xs =>
        rw [show audienceCheck wl (some (GoValue.list xs)) =
          xs.any (strInList wl) from rfl, goValueListAny_iff (strInList wl) xs]
        simp [strInList_iff]
    | nullV => simp [audienceCheck]
    | num m => simp [audienceCheck]
    | boolV b => simp [audienceCheck]
    | timeV r => simp [audienceCheck]
    | listStr ss => simp [audienceCheck]
    | listInt ns => simp [audienceCheck]
    | stringer ts => simp [audienceCheck]
    | other => simp [audienceCheck]

/-- C6: the identity projector scans the candidate ID claim names in order
and the user ID is the first non-empty stringified claim value; when every
candidate stringifies to the empty string, including when the claims are
absent, the post-verification step yields no user, an authentication
failure despite successful verification; candidates user_id, uid on claims
with a null user_id and numeric uid 19911110 yield the ID 19911110. -/
theorem claimC6_identityProjection (claims : Token) (cands : List String) :
    (resolveUserID claims cands =
      ((cands.map fun c =>
        stringify ((claims.lookup c).getD GoValue.nullV)).find?
          (fun s => s != "")).getD "") ∧
    (authenticateVerified claims cands = none ↔
      resolveUserID claims cands = "") ∧
    (∀ u, authenticateVerified claims cands = some u → u.id ≠ "") ∧
    authenticateVerified uidClaims ["user_id", "uid"] =
      some ⟨"19911110"⟩ ∧
    authenticateVerified uidClaims ["nope", "absent"] = none := by
  refine ⟨?_, ?_, ?_, by decide, by decide⟩
  · induction cands with
    | nil => rfl
    | cons c rest ih =>
        by_cases hx : stringify ((claims.lookup c).getD GoValue.nullV) = ""
        · simp [resolveUserID, List.find?_cons, hx, ih]
        · simp [resolveUserID, List.find?_cons, hx]
  · by_cases hid : resolveUserID claims cands = ""
    · simp [authenticateVerified, hid]
    · simp [authenticateVerified, hid]
  · intro u hu
    by_cases hid : resolveUserID claims cands = ""
    · simp [authenticateVerified, hid] at hu
    · simp only [authenticateVerified] at hu
      rw [if_neg (by simpa using hid)] at hu
      obtain rfl := Option.some.inj hu
      simpa using hid

end CaddyJWT
